import Mathlib

/-!
Verification of the QC web tool core (`qc.py`): delimiter sniffing,
file-upload dispatch, the configuration builder, the test runner and the
four-way masking function.  Dataframes are modelled column-wise with
integer cells; the external QC engine, the CSV/NetCDF decoders and the
cell renderer of `to_csv` are library collaborators and appear as
function parameters.
-/

namespace Qc

/-- Error values raised by the program, one constructor per `raise` site
(`ValueError` in the source); `libError` wraps exceptions coming out of the
external parsing libraries. -/
inductive PyErr where
  | elementNotFound (id : String)
  | floatConv (s : String)
  | unknownTest (t : String)
  | unsupportedFormat
  | libError (msg : String)
  deriving DecidableEq

/-- Message text carried by each error, mirroring the Python message
strings (`\x27` is the ASCII apostrophe). -/
def errMessage : PyErr → String
  | .elementNotFound id => "Element with ID \x27" ++ id ++ "\x27 not found."
  | .floatConv s => "could not convert string to float: \x27" ++ s ++ "\x27"
  | .unknownTest t => "Unknown test selected: " ++ t
  | .unsupportedFormat => "Unsupported file type. Please upload a .csv or .nc file."
  | .libError m => m

/-- The DOM as read by the configuration builder: an association list from
element id to the element's `value` string. -/
def Dom := List (String × String)

/-- Lookup of `document.getElementById(id)` restricted to the value
string; `none` models a missing element. -/
def getElementById (dom : Dom) (id : String) : Option String :=
  List.lookup id dom

/-- Value of one decimal digit character. -/
def digitVal (c : Char) : Nat := c.toNat - '0'.toNat

/-- Natural number denoted by a digit string. -/
def digitsToNat (ds : List Char) : Nat :=
  ds.foldl (fun n c => 10 * n + digitVal c) 0

/-- Unsigned part of the Python `float()` conversion on plain decimal
literals: digits with an optional fractional part (`"12"`, `"12."`,
`"12.5"`, `".5"`); anything else is rejected, as `float()` rejects
non-numeric strings. -/
def pyFloatCore (cs : List Char) : Option Rat :=
  let intPart := cs.takeWhile Char.isDigit
  match cs.dropWhile Char.isDigit with
  | [] =>
    if intPart.isEmpty then none
    else some (digitsToNat intPart : Rat)
  | '.' :: frac =>
    if frac.all Char.isDigit && !(intPart.isEmpty && frac.isEmpty) then
      some ((digitsToNat intPart : Rat) + (digitsToNat frac : Rat) / ((10 : Rat) ^ frac.length))
    else none
  | _ => none

/-- Model of Python `float(s)` on form values: optional sign followed by a
decimal literal. -/
def pyFloat (s : String) : Option Rat :=
  match s.data with
  | [] => none
  | '-' :: cs => (pyFloatCore cs).map (fun x => -x)
  | '+' :: cs => pyFloatCore cs
  | cs => pyFloatCore cs

/-- Embedding of `get_value_by_id`: a missing element raises the
element-not-found error; a value `float()` cannot convert raises the
conversion error. -/
def get_value_by_id (dom : Dom) (id : String) : Except PyErr Rat :=
  match getElementById dom id with
  | none => .error (.elementNotFound id)
  | some v =>
    match pyFloat v with
    | none => .error (.floatConv v)
    | some x => .ok x

/-- A configuration parameter value: a scalar or a list of bounds. -/
inductive ConfigVal where
  | num (x : Rat)
  | nums (xs : List Rat)
  deriving DecidableEq

/-- The nested configuration `{"qartod": {testId: params}}` built by
`get_user_config`. -/
structure QartodConfig where
  testId : String
  params : List (String × ConfigVal)
  deriving DecidableEq

deriving instance DecidableEq for Except

/-- Embedding of `get_user_config`: per-test assembly of form values, with
the unknown-test error on any other identifier. -/
def get_user_config (dom : Dom) (selected_test : String) : Except PyErr QartodConfig :=
  if selected_test = "gross_range_test" then do
    let a ← get_value_by_id dom "fail_span_min"
    let b ← get_value_by_id dom "fail_span_max"
    let c ← get_value_by_id dom "suspect_span_min"
    let d ← get_value_by_id dom "suspect_span_max"
    pure ⟨selected_test, [("fail_span", .nums [a, b]), ("suspect_span", .nums [c, d])]⟩
  else if selected_test = "flat_line_test" then do
    let a ← get_value_by_id dom "tolerance"
    let b ← get_value_by_id dom "suspect_threshold"
    let c ← get_value_by_id dom "fail_threshold"
    pure ⟨selected_test, [("tolerance", .num a), ("suspect_threshold", .num b), ("fail_threshold", .num c)]⟩
  else if selected_test = "rate_of_change_test" then do
    let a ← get_value_by_id dom "threshold"
    pure ⟨selected_test, [("threshold", .num a)]⟩
  else if selected_test = "spike_test" then do
    let a ← get_value_by_id dom "suspect_threshold"
    let b ← get_value_by_id dom "fail_threshold"
    pure ⟨selected_test, [("suspect_threshold", .num a), ("fail_threshold", .num b)]⟩
  else .error (.unknownTest selected_test)

/-- First 1024 characters of the uploaded text, the sample inspected by
the delimiter sniffer (`content[:1024]`). -/
def sniffSample (content : String) : List Char :=
  content.data.take 1024

/-- Embedding of the delimiter detection in `handle_file_upload`:
semicolon when present and strictly more frequent than comma, else tab
when present and strictly more frequent than comma, else comma. -/
def sniffDelimiter (content : String) : String :=
  let sample := sniffSample content
  if sample.contains ';' = true ∧ sample.count ',' < sample.count ';' then ";"
  else if sample.contains '\t' = true ∧ sample.count ',' < sample.count '\t' then "\t"
  else ","

/-- A pandas dataframe with its default range index, modelled column-wise:
column names paired with their cell lists.  Cells are integers (the claims
under verification are structural and do not depend on the cell domain). -/
structure Frame where
  cols : List (String × List Int)
  deriving DecidableEq

/-- Column selection `df[name]`; a missing column yields the empty series
(theorems hypothesise presence where it matters). -/
def Frame.get (df : Frame) (name : String) : List Int :=
  (List.lookup name df.cols).getD []

/-- A dataframe after `set_index`: the index column made explicit, the
remaining columns as in `Frame`. -/
structure IndexedFrame where
  index : List Int
  cols : List (String × List Int)
  deriving DecidableEq

/-- Column selection on an indexed frame. -/
def IndexedFrame.get (r : IndexedFrame) (name : String) : List Int :=
  (List.lookup name r.cols).getD []

/-- Embedding of `result.set_index(x_var)`: the named column becomes the
index and is removed from the columns. -/
def set_index (df : Frame) (x_var : String) : IndexedFrame :=
  { index := df.get x_var
    cols := df.cols.eraseP (fun p => p.fst == x_var) }

/-- Type of the external QC engine (`QcConfig(...).run` followed by the
extraction of the selected test's column): from the configuration and the
measurement, time and secondary series it produces one flag per row.  The
engine is an external collaborator and is passed in as a parameter. -/
def QcEngine := QartodConfig → List Int → List Int → List Int → List Int

/-- Embedding of `run_tests`: build the configuration (the canned
`defaultCfg` document when `use_defaults`, else the form values), run the
engine, append the flag series as a new column named after the test, and
set the time column as index. -/
def run_tests (engine : QcEngine) (defaultCfg : QartodConfig) (dom : Dom)
    (df : Frame) (var selected_test x_var y_var : String)
    (use_defaults : Bool) : Except PyErr IndexedFrame := do
  let qc_config ← if use_defaults then pure defaultCfg else get_user_config dom selected_test
  let test_results := engine qc_config (df.get var) (df.get x_var) (df.get y_var)
  let result : Frame := ⟨df.cols ++ [(selected_test, test_results)]⟩
  pure (set_index result x_var)

/-- Result of `make_mask`: the four parallel bucket sequences; `none` is
the masked ("absent") marker of `np.ma.masked_where`. -/
structure MaskedResult where
  qc_pass : List (Option Int)
  qc_suspect : List (Option Int)
  qc_fail : List (Option Int)
  qc_notrun : List (Option Int)
  deriving DecidableEq

/-- Embedding of `np.ma.masked_where(cond, obs)`: positions where the
condition holds are masked, the rest keep the observation. -/
def masked_where (cond : List Bool) (obs : List Int) : List (Option Int) :=
  List.zipWith (fun c o => if c then none else some o) cond obs

/-- Embedding of `make_mask`: the observation series split into the four
flag buckets by comparing the result's flag column against the four codes. -/
def make_mask (df : Frame) (result : IndexedFrame) (var qc_test : String) : MaskedResult :=
  let obs := df.get var
  let mask := result.get qc_test
  { qc_pass := masked_where (mask.map (fun f => f != 1)) obs
    qc_suspect := masked_where (mask.map (fun f => f != 3)) obs
    qc_fail := masked_where (mask.map (fun f => f != 4)) obs
    qc_notrun := masked_where (mask.map (fun f => f != 2)) obs }

/-- ASCII lowering of a filename, the `file.name.lower()` step. -/
def lowerName (name : String) : List Char :=
  name.data.map Char.toLower

/-- Suffix test on character lists, the `str.endswith` step. -/
def endsWithCL (cs suffix : List Char) : Bool :=
  List.isSuffixOf suffix cs

/-- Outcome reported by the upload handler: the success message or the
caught error shown in the status area. -/
inductive UploadOutcome where
  | success (name : String)
  | failure (e : PyErr)
  deriving DecidableEq

/-- Embedding of the `onload` callback of `handle_file_upload`.  The two
decoders are external library collaborators passed as parameters:
`readCsv` takes the sniffed delimiter and the text content
(`pd.read_csv`); `readNc` covers the NetCDF branch
(`xr.open_dataset` → `to_dataframe().reset_index()` → `dropna(how="all")`).
Library exceptions surface as `libError`; on any failure the session's
dataset handle is returned unchanged. -/
def onload (readCsv : String → String → Except String Frame)
    (readNc : String → Except String Frame)
    (uploaded_df : Option Frame) (name content : String) :
    Option Frame × UploadOutcome :=
  let filename := lowerName name
  if endsWithCL filename ".csv".data = true then
    let delimiter := sniffDelimiter content
    match readCsv delimiter content with
    | .ok df => (some df, .success name)
    | .error e => (uploaded_df, .failure (.libError e))
  else if endsWithCL filename ".nc".data = true then
    match readNc content with
    | .ok df => (some df, .success name)
    | .error e => (uploaded_df, .failure (.libError e))
  else (uploaded_df, .failure .unsupportedFormat)

/-- Join character-list parts with a separator character (the writing
side of a CSV line or of the line structure of a CSV document). -/
def joinSep (sep : Char) : List (List Char) → List Char
  | [] => []
  | [p] => p
  | p :: ps => p ++ sep :: joinSep sep ps

/-- Split a character list at every occurrence of the separator (the
reading side; `splitSep sep` is total and never returns `[]`). -/
def splitSep (sep : Char) : List Char → List (List Char)
  | [] => [[]]
  | c :: cs =>
    match splitSep sep cs with
    | [] => [[]]
    | p :: ps => if c = sep then [] :: p :: ps else (c :: p) :: ps

/-- Embedding of `result.to_csv(index=False)`: a header line of the column
names and one line per row, comma separated, newline joined; the index is
not written.  `render` is the external cell formatter of pandas. -/
def to_csv_noindex (render : Int → List Char) (r : IndexedFrame) : List Char :=
  let header := joinSep ',' (r.cols.map (fun p => p.fst.data))
  let row := fun i => joinSep ',' (r.cols.map (fun p => render (p.snd.getD i 0)))
  joinSep '\n' (header :: (List.range r.index.length).map row)

/-- A dataframe as re-parsed from CSV text: the header fields and the
cell grid, all as raw strings. -/
structure RawFrame where
  header : List (List Char)
  rows : List (List (List Char))
  deriving DecidableEq

/-- Model of `pd.read_csv` on comma-separated text, to the extent the
round-trip claim needs it: lines split on newline, blank lines skipped,
the first line read as the header, every later line as one row;
`none` models the empty-data error. -/
def read_csv_parse (doc : List Char) : Option RawFrame :=
  match (splitSep '\n' doc).filter (fun l => !l.isEmpty) with
  | [] => none
  | h :: rest => some ⟨splitSep ',' h, rest.map (splitSep ',')⟩

/-- The data path of `download_processed_data`: run the tests on the
uploaded dataframe and serialize the annotated result with
`to_csv(index=False)`. -/
def processed_csv (engine : QcEngine) (defaultCfg : QartodConfig)
    (render : Int → List Char) (dom : Dom) (df : Frame)
    (var qc_test x_var y_var : String) : Except PyErr (List Char) := do
  let result ← run_tests engine defaultCfg dom df var qc_test x_var y_var false
  pure (to_csv_noindex render result)

/-- The module-level mutable state of `qc.py`: the uploaded dataframe
handle and the DOM read by the configuration builder. -/
structure GlobalState where
  uploaded_df : Option Frame
  dom : Dom

/-- An invocation of `make_mask` in state-passing form: the body of
`make_mask` reads no module state and mutates none, so the call returns
the state unchanged alongside the value. -/
def makeMaskCall (s : GlobalState) (df : Frame) (result : IndexedFrame)
    (var qc_test : String) : GlobalState × MaskedResult :=
  (s, make_mask df result var qc_test)

/-- An invocation of `run_tests` in state-passing form: the call reads the
form values from the DOM part of the state and mutates nothing. -/
def runTestsCall (engine : QcEngine) (defaultCfg : QartodConfig)
    (s : GlobalState) (df : Frame) (var selected_test x_var y_var : String)
    (use_defaults : Bool) : GlobalState × Except PyErr IndexedFrame :=
  (s, run_tests engine defaultCfg s.dom df var selected_test x_var y_var use_defaults)

/-- Prefix test on character lists, used to state that an error message
names an identifier. -/
def isPrefList : List Char → List Char → Bool
  | [], _ => true
  | _ :: _, [] => false
  | a :: as, b :: bs => a == b && isPrefList as bs

/-- Substring test on character lists. -/
def containsList (needle : List Char) : List Char → Bool
  | [] => needle.isEmpty
  | c :: bs => isPrefList needle (c :: bs) || containsList needle bs

/-- Whether a message string mentions an identifier as a substring. -/
def namesId (msg id : String) : Bool :=
  containsList id.data msg.data

/-- Number of unmasked ("real") values in a bucket sequence. -/
def countSome (l : List (Option Int)) : Nat :=
  (l.filter Option.isSome).length

/-- The four bucket entries of a masked result at one row, in the order
pass, not-run, suspect, fail. -/
def MaskedResult.bucketsAt (m : MaskedResult) (i : Nat) : List (Option Int) :=
  [m.qc_pass.getD i none, m.qc_notrun.getD i none,
   m.qc_suspect.getD i none, m.qc_fail.getD i none]

/-! Theorems.  Each claim of the specification is settled by one theorem
below, over the embeddings above. -/

theorem isPrefList_append (xs ys : List Char) : isPrefList xs (xs ++ ys) = true := by
  induction xs with
  | nil => rfl
  | cons a as ih => simp [isPrefList, ih]

theorem containsList_nil_needle (hay : List Char) : containsList [] hay = true := by
  cases hay with
  | nil => rfl
  | cons c bs => simp [containsList, isPrefList]

theorem containsList_here (needle rest : List Char) :
    containsList needle (needle ++ rest) = true := by
  cases needle with
  | nil => simpa using containsList_nil_needle rest
  | cons a as => simp [containsList, isPrefList, isPrefList_append]

theorem containsList_append (pre needle post : List Char) :
    containsList needle (pre ++ (needle ++ post)) = true := by
  induction pre with
  | nil => simpa using containsList_here needle post
  | cons c cs ih => simp [containsList, ih]

/-- C4 (amended): delimiter sniffing inspects only the first 1024
characters; it chooses semicolon exactly when the semicolon count strictly
exceeds the comma count, else tab exactly when the tab count strictly
exceeds the comma count, else comma.  On the sample `"a,b;c;d"` (one
comma, two semicolons) the chosen delimiter is the semicolon, and on
`"a;b;c,d"` it is the semicolon as well. -/
theorem sniff_delimiter_rule :
    (∀ content : String,
      (sniffDelimiter content = ";" ↔
        (sniffSample content).count ',' < (sniffSample content).count ';')
      ∧ (sniffDelimiter content = "\t" ↔
        ¬ (sniffSample content).count ',' < (sniffSample content).count ';'
        ∧ (sniffSample content).count ',' < (sniffSample content).count '\t')
      ∧ (sniffDelimiter content = "," ↔
        ¬ (sniffSample content).count ',' < (sniffSample content).count ';'
        ∧ ¬ (sniffSample content).count ',' < (sniffSample content).count '\t')
      ∧ ∀ c2 : String, sniffSample content = sniffSample c2 →
          sniffDelimiter content = sniffDelimiter c2)
    ∧ sniffDelimiter "a,b;c;d" = ";"
    ∧ sniffDelimiter "a;b;c,d" = ";" := by
  refine ⟨fun content => ?_, by decide, by decide⟩
  have hlast : ∀ c2 : String, sniffSample content = sniffSample c2 →
      sniffDelimiter content = sniffDelimiter c2 := by
    intro c2 heq
    unfold sniffDelimiter
    rw [heq]
  by_cases h1 : (sniffSample content).count ',' < (sniffSample content).count ';'
  · have hm : ';' ∈ sniffSample content :=
      List.count_pos_iff.mp (Nat.lt_of_le_of_lt (Nat.zero_le _) h1)
    have hd : sniffDelimiter content = ";" := by
      unfold sniffDelimiter
      rw [if_pos ⟨by simpa using hm, h1⟩]
    refine ⟨by simp [hd, h1], ?_, ?_, hlast⟩
    · constructor
      · intro h
        rw [hd] at h
        exact absurd h (by decide)
      · intro h
        exact absurd h1 h.1
    · constructor
      · intro h
        rw [hd] at h
        exact absurd h (by decide)
      · intro h
        exact absurd h1 h.1
  · by_cases h2 : (sniffSample content).count ',' < (sniffSample content).count '\t'
    · have hm : '\t' ∈ sniffSample content :=
        List.count_pos_iff.mp (Nat.lt_of_le_of_lt (Nat.zero_le _) h2)
      have hd : sniffDelimiter content = "\t" := by
        unfold sniffDelimiter
        rw [if_neg (by intro hc; exact h1 hc.2), if_pos ⟨by simpa using hm, h2⟩]
      refine ⟨?_, by simp [hd, h1, h2], ?_, hlast⟩
      · constructor
        · intro h
          rw [hd] at h
          exact absurd h (by decide)
        · intro h
          exact absurd h h1
      · constructor
        · intro h
          rw [hd] at h
          exact absurd h (by decide)
        · intro h
          exact absurd h2 h.2
    · have hd : sniffDelimiter content = "," := by
        unfold sniffDelimiter
        rw [if_neg (by intro hc; exact h1 hc.2), if_neg (by intro hc; exact h2 hc.2)]
      refine ⟨?_, ?_, by simp [hd, h1, h2], hlast⟩
      · constructor
        · intro h
          rw [hd] at h
          exact absurd h (by decide)
        · intro h
          exact absurd h h1
      · constructor
        · intro h
          rw [hd] at h
          exact absurd h (by decide)
        · intro h
          exact absurd h.2 h2

/-- C4 witness: the rule applied at concrete samples covering the three
branches. -/
theorem sniff_delimiter_rule_witness :
    sniffDelimiter "a\tb\tc" = "\t" ∧ sniffDelimiter "x,y" = "," := by
  constructor
  · exact ((sniff_delimiter_rule.1 "a\tb\tc").2.1).mpr (by decide)
  · exact ((sniff_delimiter_rule.1 "x,y").2.2.1).mpr (by decide)

/-- C4 counterexample: on the sample `"a,b;c;d"` the code chooses the
semicolon (two semicolons strictly exceed one comma), not the comma the
claim expects. -/
theorem sniff_delimiter_example_refuted :
    sniffDelimiter "a,b;c;d" = ";" ∧ sniffDelimiter "a,b;c;d" ≠ "," := by
  decide

/-- C6: for every test identifier other than the four built-in ones, the
configuration builder fails with the unknown-test error, whatever the form
state. -/
theorem get_user_config_unknown_test (dom : Dom) (t : String)
    (h1 : t ≠ "gross_range_test") (h2 : t ≠ "flat_line_test")
    (h3 : t ≠ "rate_of_change_test") (h4 : t ≠ "spike_test") :
    get_user_config dom t = .error (.unknownTest t) := by
  unfold get_user_config
  rw [if_neg h1, if_neg h2, if_neg h3, if_neg h4]

/-- C6 witness: a concrete unrecognized identifier fails with the
unknown-test error. -/
theorem get_user_config_unknown_test_witness :
    get_user_config [] "window_test" = .error (.unknownTest "window_test") :=
  get_user_config_unknown_test [] "window_test"
    (by decide) (by decide) (by decide) (by decide)

/-- C7 (amended): a missing form field fails with the element-not-found
error, whose message names the field id; a present but non-numeric field
fails with the float-conversion error, whose message names the offending
value (not, in general, the field id). -/
theorem get_value_by_id_error_modes (dom : Dom) (id : String) :
    (getElementById dom id = none →
      get_value_by_id dom id = .error (.elementNotFound id)
      ∧ namesId (errMessage (.elementNotFound id)) id = true)
    ∧ (∀ v, getElementById dom id = some v → pyFloat v = none →
      get_value_by_id dom id = .error (.floatConv v)
      ∧ namesId (errMessage (.floatConv v)) v = true) := by
  constructor
  · intro h
    constructor
    · unfold get_value_by_id
      rw [h]
    · show containsList id.data ("Element with ID \x27" ++ (id ++ "\x27 not found.")).data = true
      rw [String.data_append, String.data_append]
      exact containsList_append _ _ _
  · intro v hv hf
    constructor
    · unfold get_value_by_id
      rw [hv]
      simp [hf]
    · show containsList v.data ("could not convert string to float: \x27" ++ (v ++ "\x27")).data = true
      rw [String.data_append, String.data_append]
      exact containsList_append _ _ _

/-- C7 witness: the two error modes at concrete form states. -/
theorem get_value_by_id_error_modes_witness :
    get_value_by_id [] "fail_span_min" = .error (.elementNotFound "fail_span_min")
    ∧ get_value_by_id [("tolerance", "abc")] "tolerance" = .error (.floatConv "abc") := by
  constructor
  · exact ((get_value_by_id_error_modes [] "fail_span_min").1 (by decide)).1
  · exact ((get_value_by_id_error_modes [("tolerance", "abc")] "tolerance").2
      "abc" (by decide) (by decide)).1

/-- C7 counterexample: a non-numeric value in the `tolerance` field fails
with the float-conversion error, whose message does not name the field id
`tolerance`, contrary to the claim. -/
theorem get_value_by_id_message_counterexample :
    get_value_by_id [("tolerance", "abc")] "tolerance" = .error (.floatConv "abc")
    ∧ namesId (errMessage (.floatConv "abc")) "tolerance" = false := by
  decide

/-- C5: `make_mask` is pure: its result is the same under any two module
states (dataset handle, DOM), and an invocation leaves the state
untouched. -/
theorem make_mask_state_independent (s1 s2 : GlobalState) (df : Frame)
    (result : IndexedFrame) (var qc_test : String) :
    (makeMaskCall s1 df result var qc_test).2 = (makeMaskCall s2 df result var qc_test).2
    ∧ (makeMaskCall s1 df result var qc_test).1 = s1 :=
  ⟨rfl, rfl⟩

/-- C9: `run_tests` is idempotent with respect to repetition: a call
leaves the module state unchanged, and a second call on the resulting
state with identical inputs returns an identical annotated dataset. -/
theorem run_tests_repeat_identical (engine : QcEngine) (defaultCfg : QartodConfig)
    (s : GlobalState) (df : Frame) (var selected_test x_var y_var : String)
    (use_defaults : Bool) :
    (runTestsCall engine defaultCfg
        (runTestsCall engine defaultCfg s df var selected_test x_var y_var use_defaults).1
        df var selected_test x_var y_var use_defaults).2
      = (runTestsCall engine defaultCfg s df var selected_test x_var y_var use_defaults).2
    ∧ (runTestsCall engine defaultCfg s df var selected_test x_var y_var use_defaults).1 = s :=
  ⟨rfl, rfl⟩

/-- C10: file-format dispatch lowercases the filename before the
extension check; an upload fails with the unsupported-format error exactly
when the lowercased name ends in neither `.csv` nor `.nc`, and a name
whose lowercased form ends in `.csv` (resp. `.nc`) is parsed by the
corresponding decoder. -/
theorem upload_dispatch_by_lowered_extension
    (readCsv : String → String → Except String Frame)
    (readNc : String → Except String Frame)
    (st : Option Frame) (name content : String) :
    ((onload readCsv readNc st name content).2 = .failure .unsupportedFormat
      ↔ ¬ endsWithCL (lowerName name) ".csv".data = true
        ∧ ¬ endsWithCL (lowerName name) ".nc".data = true)
    ∧ (∀ df, endsWithCL (lowerName name) ".csv".data = true →
        readCsv (sniffDelimiter content) content = .ok df →
        onload readCsv readNc st name content = (some df, .success name))
    ∧ (∀ df, ¬ endsWithCL (lowerName name) ".csv".data = true →
        endsWithCL (lowerName name) ".nc".data = true →
        readNc content = .ok df →
        onload readCsv readNc st name content = (some df, .success name)) := by
  by_cases h1 : endsWithCL (lowerName name) ".csv".data = true
  · refine ⟨?_, ?_, fun df hn => absurd h1 hn⟩
    · unfold onload
      rw [if_pos h1]
      cases hr : readCsv (sniffDelimiter content) content with
      | ok df => simp [hr, h1]
      | error e => simp [hr, h1]
    · intro df _ hok
      unfold onload
      rw [if_pos h1]
      simp [hok]
  · by_cases h2 : endsWithCL (lowerName name) ".nc".data = true
    · refine ⟨?_, fun df hc => absurd hc h1, ?_⟩
      · unfold onload
        rw [if_neg h1, if_pos h2]
        cases hr : readNc content with
        | ok df => simp [hr, h1, h2]
        | error e => simp [hr, h1, h2]
      · intro df _ _ hok
        unfold onload
        rw [if_neg h1, if_pos h2]
        simp [hok]
    · refine ⟨?_, fun df hc => absurd hc h1, fun df _ hn => absurd hn h2⟩
      unfold onload
      rw [if_neg h1, if_neg h2]
      simp [h1, h2]

/-- C10 witness: an uppercase `.CSV` name reaches the CSV decoder, a
mixed-case `.Nc` name reaches the NetCDF decoder, and a `.xlsx` name
fails with the unsupported-format error. -/
theorem upload_dispatch_by_lowered_extension_witness :
    onload (fun _ _ => .ok ⟨[("a", [1])]⟩) (fun _ => .error "x")
        none "DATA.CSV" "a,b" = (some ⟨[("a", [1])]⟩, .success "DATA.CSV")
    ∧ onload (fun _ _ => .error "x") (fun _ => .ok ⟨[("b", [2])]⟩)
        none "grid.Nc" "zz" = (some ⟨[("b", [2])]⟩, .success "grid.Nc")
    ∧ (onload (fun _ _ => .ok ⟨[("a", [1])]⟩) (fun _ => .ok ⟨[("b", [2])]⟩)
        none "table.xlsx" "a,b").2 = .failure .unsupportedFormat := by
  refine ⟨?_, ?_, ?_⟩
  · exact (upload_dispatch_by_lowered_extension (fun _ _ => .ok ⟨[("a", [1])]⟩)
      (fun _ => .error "x") none "DATA.CSV" "a,b").2.1 ⟨[("a", [1])]⟩ (by decide) rfl
  · exact (upload_dispatch_by_lowered_extension (fun _ _ => .error "x")
      (fun _ => .ok ⟨[("b", [2])]⟩) none "grid.Nc" "zz").2.2 ⟨[("b", [2])]⟩
      (by decide) (by decide) rfl
  · exact ((upload_dispatch_by_lowered_extension (fun _ _ => .ok ⟨[("a", [1])]⟩)
      (fun _ => .ok ⟨[("b", [2])]⟩) none "table.xlsx" "a,b").1).mpr
      ⟨by decide, by decide⟩

/-- C8: whenever ingestion reports a failure — an unsupported extension or
a decoder error — the session's dataset handle is returned unchanged. -/
theorem upload_failure_preserves_dataset
    (readCsv : String → String → Except String Frame)
    (readNc : String → Except String Frame)
    (st : Option Frame) (name content : String) (e : PyErr)
    (h : (onload readCsv readNc st name content).2 = .failure e) :
    (onload readCsv readNc st name content).1 = st := by
  unfold onload at h ⊢
  by_cases h1 : endsWithCL (lowerName name) ".csv".data = true
  · rw [if_pos h1] at h ⊢
    cases hr : readCsv (sniffDelimiter content) content with
    | ok df => simp [hr] at h
    | error msg => simp [hr]
  · rw [if_neg h1] at h ⊢
    by_cases h2 : endsWithCL (lowerName name) ".nc".data = true
    · rw [if_pos h2] at h ⊢
      cases hr : readNc content with
      | ok df => simp [hr] at h
      | error msg => simp [hr]
    · rw [if_neg h2]

/-- C8 witness: a failing CSV decode on a concrete upload leaves the
previously loaded dataframe in place. -/
theorem upload_failure_preserves_dataset_witness :
    (onload (fun _ _ => .error "parse failure") (fun _ => .error "x")
        (some ⟨[("a", [1])]⟩) "d.csv" "1,2").2 = .failure (.libError "parse failure")
    ∧ (onload (fun _ _ => .error "parse failure") (fun _ => .error "x")
        (some ⟨[("a", [1])]⟩) "d.csv" "1,2").1 = some ⟨[("a", [1])]⟩ :=
  ⟨by decide,
   upload_failure_preserves_dataset (fun _ _ => .error "parse failure")
     (fun _ => .error "x") (some ⟨[("a", [1])]⟩) "d.csv" "1,2"
     (.libError "parse failure") (by decide)⟩

theorem lookup_append_not_key {β : Type} (x t : String) (fl : β)
    (l : List (String × β)) (h : t ≠ x) :
    List.lookup x (l ++ [(t, fl)]) = List.lookup x l := by
  induction l with
  | nil =>
    have : (x == t) = false := by
      simp [Ne.symm h]
    simp [List.lookup, this]
  | cons a rest ih =>
    obtain ⟨k, v⟩ := a
    simp only [List.cons_append, List.lookup]
    cases hxk : x == k
    · simpa [hxk] using ih
    · simp [hxk]

theorem eraseP_append_singleton {α : Type} (p : α → Bool) (a : α) (l : List α)
    (h : p a = false) :
    (l ++ [a]).eraseP p = l.eraseP p ++ [a] := by
  induction l with
  | nil => simp [List.eraseP, h]
  | cons b bs ih =>
    by_cases hb : p b
    · simp [List.eraseP_cons, hb]
    · simp [List.eraseP_cons, hb, ih]

theorem run_tests_ok_shape (engine : QcEngine) (defaultCfg : QartodConfig) (dom : Dom)
    (df : Frame) (var selected_test x_var y_var : String) (cfg : QartodConfig)
    (hcfg : get_user_config dom selected_test = .ok cfg)
    (hxt : selected_test ≠ x_var) :
    run_tests engine defaultCfg dom df var selected_test x_var y_var false
      = .ok ⟨df.get x_var,
             df.cols.eraseP (fun p => p.fst == x_var)
               ++ [(selected_test,
                    engine cfg (df.get var) (df.get x_var) (df.get y_var))]⟩ := by
  have hstep : run_tests engine defaultCfg dom df var selected_test x_var y_var false
      = (get_user_config dom selected_test).bind (fun qc_config =>
          pure (set_index
            ⟨df.cols ++ [(selected_test,
               engine qc_config (df.get var) (df.get x_var) (df.get y_var))]⟩ x_var)) := rfl
  rw [hstep, hcfg]
  show Except.ok (set_index
      ⟨df.cols ++ [(selected_test, engine cfg (df.get var) (df.get x_var) (df.get y_var))]⟩
      x_var) = _
  unfold set_index
  congr 1
  simp only [IndexedFrame.mk.injEq]
  refine ⟨?_, ?_⟩
  · unfold Frame.get
    rw [lookup_append_not_key x_var selected_test _ df.cols hxt]
  · exact eraseP_append_singleton _ _ _ (by simp [hxt])

/-- C2 (amended): with a well-formed configuration, `run_tests` returns
the dataset's columns with the QC flag series appended as one new column
named after the test, the time column moved to the index; the index is the
time column's values in the input's original row order (the code never
sorts, so ascending order is not guaranteed). -/
theorem run_tests_shape (engine : QcEngine) (defaultCfg : QartodConfig) (dom : Dom)
    (df : Frame) (var selected_test x_var y_var : String) (cfg : QartodConfig)
    (hcfg : get_user_config dom selected_test = .ok cfg)
    (hxt : selected_test ≠ x_var) :
    run_tests engine defaultCfg dom df var selected_test x_var y_var false
      = .ok ⟨df.get x_var,
             df.cols.eraseP (fun p => p.fst == x_var)
               ++ [(selected_test,
                    engine cfg (df.get var) (df.get x_var) (df.get y_var))]⟩ :=
  run_tests_ok_shape engine defaultCfg dom df var selected_test x_var y_var cfg hcfg hxt

/-- C2 witness: the amended shape at a concrete dataset and
configuration. -/
theorem run_tests_shape_witness :
    run_tests (fun _ _ _ _ => [1, 1]) ⟨"d", []⟩ [("threshold", "1")]
        ⟨[("timestamp", [2, 1]), ("z", [0, 0]), ("v", [5, 6])]⟩
        "v" "rate_of_change_test" "timestamp" "z" false
      = .ok ⟨[2, 1], [("z", [0, 0]), ("v", [5, 6]), ("rate_of_change_test", [1, 1])]⟩ := by
  have h := run_tests_shape (fun _ _ _ _ => [1, 1]) ⟨"d", []⟩ [("threshold", "1")]
      ⟨[("timestamp", [2, 1]), ("z", [0, 0]), ("v", [5, 6])]⟩
      "v" "rate_of_change_test" "timestamp" "z"
      ⟨"rate_of_change_test", [("threshold", .num 1)]⟩ (by decide) (by decide)
  exact h.trans (by decide)

/-- C2 counterexample: on a dataset whose time column is `[2, 1]` the
result's index is `[2, 1]`, the original row order, which is not
ascending — `run_tests` never sorts. -/
theorem run_tests_not_sorted_counterexample :
    ((run_tests (fun _ _ _ _ => [1, 1]) ⟨"d", []⟩ [("threshold", "1")]
        ⟨[("timestamp", [2, 1]), ("z", [0, 0]), ("v", [5, 6])]⟩
        "v" "rate_of_change_test" "timestamp" "z" false).toOption.map
          (fun r => r.index)) = some [2, 1]
    ∧ ¬ List.Sorted (· ≤ ·) ([2, 1] : List Int) := by
  constructor
  · decide
  · intro h
    have h2 := List.rel_of_sorted_cons h 1 (by simp)
    omega

theorem masked_where_getD (k : Int) (mask obs : List Int) (i : Nat)
    (hlen : mask.length = obs.length) (hi : i < obs.length) :
    (masked_where (mask.map (fun f => f != k)) obs).getD i none
      = if mask.getD i 0 = k then some (obs.getD i 0) else none := by
  induction mask generalizing obs i with
  | nil =>
    rw [← hlen] at hi
    exact absurd hi (by simp)
  | cons f ms ih =>
    cases obs with
    | nil => simp at hi
    | cons o os =>
      cases i with
      | zero =>
        show (if (f != k) then none else some o) = if f = k then some o else none
        by_cases hf : f = k
        · simp [hf]
        · simp [hf]
      | succ n =>
        have hl : ms.length = os.length := by simpa using hlen
        have hn : n < os.length := by simpa using hi
        simpa [masked_where, List.getD_cons_succ] using ih os n hl hn

theorem countSome_masked_where_cons (k f o : Int) (ms os : List Int) :
    countSome (masked_where ((f :: ms).map (fun g => g != k)) (o :: os))
      = (if f = k then 1 else 0) + countSome (masked_where (ms.map (fun g => g != k)) os) := by
  by_cases hf : f = k
  · simp [masked_where, countSome, hf, Nat.add_comm]
  · simp [masked_where, countSome, hf]

theorem countSome_buckets_sum (mask obs : List Int)
    (hlen : mask.length = obs.length)
    (hflags : ∀ f ∈ mask, f = 1 ∨ f = 2 ∨ f = 3 ∨ f = 4) :
    countSome (masked_where (mask.map (fun f => f != 1)) obs)
      + countSome (masked_where (mask.map (fun f => f != 2)) obs)
      + countSome (masked_where (mask.map (fun f => f != 3)) obs)
      + countSome (masked_where (mask.map (fun f => f != 4)) obs)
      = obs.length := by
  induction mask generalizing obs with
  | nil =>
    cases obs with
    | nil => simp [masked_where, countSome]
    | cons o os => simp at hlen
  | cons f ms ih =>
    cases obs with
    | nil => simp at hlen
    | cons o os =>
      have hl : ms.length = os.length := by simpa using hlen
      have hrest : ∀ g ∈ ms, g = 1 ∨ g = 2 ∨ g = 3 ∨ g = 4 :=
        fun g hg => hflags g (by simp [hg])
      have IH := ih os hl hrest
      rcases hflags f (by simp) with h | h | h | h <;> subst h <;>
        rw [countSome_masked_where_cons, countSome_masked_where_cons,
          countSome_masked_where_cons, countSome_masked_where_cons] <;>
        simp only [List.length_cons] <;> simp <;> omega

/-- C1: whenever the flag column and the observation column have the same
length and every flag is one of the four codes, `make_mask` maps each row
to the bucket named by its flag — the pass bucket holds the observation
exactly when the flag is 1, not-run exactly when 2, suspect exactly when
3, fail exactly when 4, and a bucket whose code differs from the flag
holds the masked marker — so each row's observation sits in exactly one
bucket, and the four buckets' real-value counts sum to the row count. -/
theorem make_mask_partitions (df : Frame) (result : IndexedFrame) (var qc_test : String)
    (hlen : (result.get qc_test).length = (df.get var).length)
    (hflags : ∀ f ∈ result.get qc_test, f = 1 ∨ f = 2 ∨ f = 3 ∨ f = 4) :
    (∀ i, i < (df.get var).length →
      ((make_mask df result var qc_test).qc_pass.getD i none
        = if (result.get qc_test).getD i 0 = 1 then some ((df.get var).getD i 0) else none)
      ∧ ((make_mask df result var qc_test).qc_notrun.getD i none
        = if (result.get qc_test).getD i 0 = 2 then some ((df.get var).getD i 0) else none)
      ∧ ((make_mask df result var qc_test).qc_suspect.getD i none
        = if (result.get qc_test).getD i 0 = 3 then some ((df.get var).getD i 0) else none)
      ∧ ((make_mask df result var qc_test).qc_fail.getD i none
        = if (result.get qc_test).getD i 0 = 4 then some ((df.get var).getD i 0) else none)
      ∧ ((make_mask df result var qc_test).bucketsAt i).countP Option.isSome = 1
      ∧ some ((df.get var).getD i 0) ∈ (make_mask df result var qc_test).bucketsAt i)
    ∧ countSome (make_mask df result var qc_test).qc_pass
      + countSome (make_mask df result var qc_test).qc_notrun
      + countSome (make_mask df result var qc_test).qc_suspect
      + countSome (make_mask df result var qc_test).qc_fail
      = (df.get var).length := by
  constructor
  · intro i hi
    have h1 := masked_where_getD 1 (result.get qc_test) (df.get var) i hlen hi
    have h2 := masked_where_getD 2 (result.get qc_test) (df.get var) i hlen hi
    have h3 := masked_where_getD 3 (result.get qc_test) (df.get var) i hlen hi
    have h4 := masked_where_getD 4 (result.get qc_test) (df.get var) i hlen hi
    have hmem : (result.get qc_test).getD i 0 ∈ result.get qc_test := by
      have hilt : i < (result.get qc_test).length := hlen ▸ hi
      rw [List.getD_eq_getElem _ _ hilt]
      exact List.getElem_mem hilt
    have hb : (make_mask df result var qc_test).bucketsAt i
        = [(masked_where ((result.get qc_test).map (fun f => f != 1)) (df.get var)).getD i none,
           (masked_where ((result.get qc_test).map (fun f => f != 2)) (df.get var)).getD i none,
           (masked_where ((result.get qc_test).map (fun f => f != 3)) (df.get var)).getD i none,
           (masked_where ((result.get qc_test).map (fun f => f != 4)) (df.get var)).getD i none] := rfl
    have hcm : ((make_mask df result var qc_test).bucketsAt i).countP Option.isSome = 1
        ∧ some ((df.get var).getD i 0) ∈ (make_mask df result var qc_test).bucketsAt i := by
      rcases hflags _ hmem with h | h | h | h <;>
        rw [h] at h1 h2 h3 h4 <;>
        simp only [hb, h1, h2, h3, h4] <;>
        norm_num
    exact ⟨h1, h2, h3, h4, hcm.1, hcm.2⟩
  · exact countSome_buckets_sum (result.get qc_test) (df.get var) hlen hflags

/-- C1 witness: the partition property at a concrete dataset whose flag
column holds all four codes; the row flagged 1 lands in the pass bucket,
the row flagged 4 in the fail bucket and nowhere else. -/
theorem make_mask_partitions_witness :
    (make_mask ⟨[("v", [10, 20, 30, 40])]⟩
        ⟨[0, 1, 2, 3], [("spike_test", [1, 4, 3, 2])]⟩
        "v" "spike_test").qc_pass.getD 0 none = some 10
    ∧ (make_mask ⟨[("v", [10, 20, 30, 40])]⟩
        ⟨[0, 1, 2, 3], [("spike_test", [1, 4, 3, 2])]⟩
        "v" "spike_test").qc_fail.getD 1 none = some 20
    ∧ (make_mask ⟨[("v", [10, 20, 30, 40])]⟩
        ⟨[0, 1, 2, 3], [("spike_test", [1, 4, 3, 2])]⟩
        "v" "spike_test").qc_pass.getD 1 none = none
    ∧ (((make_mask ⟨[("v", [10, 20, 30, 40])]⟩
          ⟨[0, 1, 2, 3], [("spike_test", [1, 4, 3, 2])]⟩
          "v" "spike_test").bucketsAt 1).countP Option.isSome = 1)
    ∧ countSome (make_mask ⟨[("v", [10, 20, 30, 40])]⟩
          ⟨[0, 1, 2, 3], [("spike_test", [1, 4, 3, 2])]⟩
          "v" "spike_test").qc_pass
      + countSome (make_mask ⟨[("v", [10, 20, 30, 40])]⟩
          ⟨[0, 1, 2, 3], [("spike_test", [1, 4, 3, 2])]⟩
          "v" "spike_test").qc_notrun
      + countSome (make_mask ⟨[("v", [10, 20, 30, 40])]⟩
          ⟨[0, 1, 2, 3], [("spike_test", [1, 4, 3, 2])]⟩
          "v" "spike_test").qc_suspect
      + countSome (make_mask ⟨[("v", [10, 20, 30, 40])]⟩
          ⟨[0, 1, 2, 3], [("spike_test", [1, 4, 3, 2])]⟩
          "v" "spike_test").qc_fail = 4 := by
  have h := make_mask_partitions ⟨[("v", [10, 20, 30, 40])]⟩
      ⟨[0, 1, 2, 3], [("spike_test", [1, 4, 3, 2])]⟩
      "v" "spike_test" (by decide) (by decide)
  exact ⟨((h.1 0 (by decide)).1).trans (by decide),
    ((h.1 1 (by decide)).2.2.2.1).trans (by decide),
    ((h.1 1 (by decide)).1).trans (by decide),
    (h.1 1 (by decide)).2.2.2.2.1, h.2⟩

theorem splitSep_ne_nil (sep : Char) (l : List Char) : splitSep sep l ≠ [] := by
  cases l with
  | nil => simp [splitSep]
  | cons c cs =>
    unfold splitSep
    cases h : splitSep sep cs with
    | nil => simp
    | cons p ps => by_cases hc : c = sep <;> simp [hc]

theorem splitSep_no_sep (sep : Char) (l : List Char) (h : sep ∉ l) :
    splitSep sep l = [l] := by
  induction l with
  | nil => rfl
  | cons c cs ih =>
    have hc : c ≠ sep := fun e => h (e ▸ List.mem_cons_self c cs)
    have hcs : sep ∉ cs := fun m => h (List.mem_cons_of_mem _ m)
    unfold splitSep
    rw [ih hcs]
    simp [hc]

theorem splitSep_cons (sep c : Char) (cs : List Char) :
    splitSep sep (c :: cs) = match splitSep sep cs with
      | [] => [[]]
      | p :: ps => if c = sep then [] :: p :: ps else (c :: p) :: ps := rfl

theorem splitSep_append (sep : Char) (p rest : List Char) (hp : sep ∉ p) :
    splitSep sep (p ++ sep :: rest) = p :: splitSep sep rest := by
  induction p with
  | nil =>
    simp only [List.nil_append]
    rw [splitSep_cons]
    cases h : splitSep sep rest with
    | nil => exact absurd h (splitSep_ne_nil sep rest)
    | cons q qs => simp
  | cons c cs ih =>
    have hc : c ≠ sep := fun e => hp (e ▸ List.mem_cons_self c cs)
    have hcs : sep ∉ cs := fun m => hp (List.mem_cons_of_mem _ m)
    simp only [List.cons_append]
    rw [splitSep_cons, ih hcs]
    simp [hc]

theorem splitSep_joinSep (sep : Char) (parts : List (List Char))
    (hne : parts ≠ []) (hsep : ∀ p ∈ parts, sep ∉ p) :
    splitSep sep (joinSep sep parts) = parts := by
  induction parts with
  | nil => exact absurd rfl hne
  | cons p ps ih =>
    cases ps with
    | nil =>
      rw [show joinSep sep [p] = p from rfl]
      exact splitSep_no_sep sep p (hsep p (by simp))
    | cons q qs =>
      rw [show joinSep sep (p :: q :: qs) = p ++ sep :: joinSep sep (q :: qs) from rfl]
      rw [splitSep_append sep p _ (hsep p (by simp))]
      rw [ih (by simp) (fun r hr => hsep r (by simp [hr]))]

theorem mem_joinSep {c sep : Char} {parts : List (List Char)}
    (h : c ∈ joinSep sep parts) : c = sep ∨ ∃ p ∈ parts, c ∈ p := by
  induction parts with
  | nil => simp [joinSep] at h
  | cons p ps ih =>
    cases ps with
    | nil =>
      rw [show joinSep sep [p] = p from rfl] at h
      exact Or.inr ⟨p, by simp, h⟩
    | cons q qs =>
      rw [show joinSep sep (p :: q :: qs) = p ++ sep :: joinSep sep (q :: qs) from rfl] at h
      rcases List.mem_append.mp h with h | h
      · exact Or.inr ⟨p, by simp, h⟩
      · rcases List.mem_cons.mp h with h | h
        · exact Or.inl h
        · rcases ih h with h | ⟨r, hr, hc⟩
          · exact Or.inl h
          · exact Or.inr ⟨r, by simp [hr], hc⟩

theorem joinSep_ne_nil (sep : Char) (parts : List (List Char))
    (h1 : parts ≠ []) (h2 : ∀ p ∈ parts, p ≠ []) : joinSep sep parts ≠ [] := by
  cases parts with
  | nil => exact absurd rfl h1
  | cons x xs =>
    cases xs with
    | nil => simpa [joinSep] using h2 x (by simp)
    | cons y ys => simp [joinSep]

theorem read_csv_parse_cons (h : List Char) (rest : List (List Char)) (doc : List Char)
    (hdoc : (splitSep '\n' doc).filter (fun l => !l.isEmpty) = h :: rest) :
    read_csv_parse doc = some ⟨splitSep ',' h, rest.map (splitSep ',')⟩ := by
  unfold read_csv_parse
  rw [hdoc]

theorem read_csv_to_csv_shape (render : Int → List Char) (r : IndexedFrame)
    (hcols : r.cols ≠ [])
    (hnames : ∀ p ∈ r.cols, ',' ∉ p.fst.data ∧ '\n' ∉ p.fst.data ∧ p.fst.data ≠ [])
    (hrender : ∀ v : Int, ',' ∉ render v ∧ '\n' ∉ render v ∧ render v ≠ []) :
    read_csv_parse (to_csv_noindex render r)
      = some ⟨r.cols.map (fun p => p.fst.data),
              (List.range r.index.length).map
                (fun i => r.cols.map (fun p => render (p.snd.getD i 0)))⟩ := by
  have hnamesmap : ∀ s ∈ r.cols.map (fun p => p.fst.data),
      ',' ∉ s ∧ '\n' ∉ s ∧ s ≠ [] := by
    intro s hs
    rcases List.mem_map.mp hs with ⟨p, hp, rfl⟩
    exact hnames p hp
  have hcellsmap : ∀ i, ∀ s ∈ r.cols.map (fun p => render (p.snd.getD i 0)),
      ',' ∉ s ∧ '\n' ∉ s ∧ s ≠ [] := by
    intro i s hs
    rcases List.mem_map.mp hs with ⟨p, hp, rfl⟩
    exact hrender _
  have hmapne : ∀ (f : String × List Int → List Char), r.cols.map f ≠ [] := by
    intro f h
    exact hcols (List.map_eq_nil_iff.mp h)
  have hheader_nonl : '\n' ∉ joinSep ',' (r.cols.map (fun p => p.fst.data)) := by
    intro hmem
    rcases mem_joinSep hmem with h | ⟨s, hs, hc⟩
    · exact absurd h (by decide)
    · exact (hnamesmap s hs).2.1 hc
  have hheader_ne : joinSep ',' (r.cols.map (fun p => p.fst.data)) ≠ [] :=
    joinSep_ne_nil ',' _ (hmapne _) (fun s hs => (hnamesmap s hs).2.2)
  have hrow_nonl : ∀ i, '\n' ∉ joinSep ',' (r.cols.map (fun p => render (p.snd.getD i 0))) := by
    intro i hmem
    rcases mem_joinSep hmem with h | ⟨s, hs, hc⟩
    · exact absurd h (by decide)
    · exact (hcellsmap i s hs).2.1 hc
  have hrow_ne : ∀ i, joinSep ',' (r.cols.map (fun p => render (p.snd.getD i 0))) ≠ [] :=
    fun i => joinSep_ne_nil ',' _ (hmapne _) (fun s hs => (hcellsmap i s hs).2.2)
  have hlines_nonl : ∀ l ∈ (joinSep ',' (r.cols.map (fun p => p.fst.data)))
      :: (List.range r.index.length).map
          (fun i => joinSep ',' (r.cols.map (fun p => render (p.snd.getD i 0)))),
      '\n' ∉ l := by
    intro l hl
    rcases List.mem_cons.mp hl with h | h
    · rw [h]
      exact hheader_nonl
    · rcases List.mem_map.mp h with ⟨i, _, rfl⟩
      exact hrow_nonl i
  have hlines_ne : ∀ l ∈ (joinSep ',' (r.cols.map (fun p => p.fst.data)))
      :: (List.range r.index.length).map
          (fun i => joinSep ',' (r.cols.map (fun p => render (p.snd.getD i 0)))),
      l ≠ [] := by
    intro l hl
    rcases List.mem_cons.mp hl with h | h
    · rw [h]
      exact hheader_ne
    · rcases List.mem_map.mp h with ⟨i, _, rfl⟩
      exact hrow_ne i
  have hto : to_csv_noindex render r
      = joinSep '\n' ((joinSep ',' (r.cols.map (fun p => p.fst.data)))
          :: (List.range r.index.length).map
              (fun i => joinSep ',' (r.cols.map (fun p => render (p.snd.getD i 0))))) := rfl
  have hsplit := splitSep_joinSep '\n' _ (by simp) hlines_nonl
  have hfilter : (((joinSep ',' (r.cols.map (fun p => p.fst.data)))
      :: (List.range r.index.length).map
          (fun i => joinSep ',' (r.cols.map (fun p => render (p.snd.getD i 0))))).filter
        (fun l => !l.isEmpty))
      = (joinSep ',' (r.cols.map (fun p => p.fst.data)))
        :: (List.range r.index.length).map
            (fun i => joinSep ',' (r.cols.map (fun p => render (p.snd.getD i 0)))) :=
    List.filter_eq_self.mpr (fun a ha => by simpa using hlines_ne a ha)
  have hdoc : (splitSep '\n' (to_csv_noindex render r)).filter (fun l => !l.isEmpty)
      = (joinSep ',' (r.cols.map (fun p => p.fst.data)))
        :: (List.range r.index.length).map
            (fun i => joinSep ',' (r.cols.map (fun p => render (p.snd.getD i 0)))) := by
    rw [hto, hsplit]
    exact hfilter
  have hhp := splitSep_joinSep ',' (r.cols.map (fun p => p.fst.data)) (hmapne _)
    (fun s hs => (hnamesmap s hs).1)
  have hrp : ∀ i, splitSep ',' (joinSep ',' (r.cols.map (fun p => render (p.snd.getD i 0))))
      = r.cols.map (fun p => render (p.snd.getD i 0)) :=
    fun i => splitSep_joinSep ',' _ (hmapne _) (fun s hs => (hcellsmap i s hs).1)
  rw [read_csv_parse_cons _ _ _ hdoc, hhp]
  simp only [Option.some.injEq, RawFrame.mk.injEq, List.map_map, true_and]
  exact List.map_congr_left (fun i _ => hrp i)

/-- C3 (amended): running the tests, serializing the annotated result
with `to_csv(index=False)` and re-parsing the CSV yields a dataset with
the same column count as the input — the QC flag column is added but the
time column, moved to the index by `set_index`, is dropped by
`index=False` — and a row count identical to the input's. -/
theorem download_roundtrip_shape (engine : QcEngine) (defaultCfg : QartodConfig)
    (render : Int → List Char) (dom : Dom) (df : Frame)
    (var qc_test x_var y_var : String) (cfg : QartodConfig)
    (hcfg : get_user_config dom qc_test = .ok cfg)
    (hxt : qc_test ≠ x_var)
    (hx : x_var ∈ df.cols.map Prod.fst)
    (hnames : ∀ p ∈ df.cols, ',' ∉ p.fst.data ∧ '\n' ∉ p.fst.data ∧ p.fst.data ≠ [])
    (htname : ',' ∉ qc_test.data ∧ '\n' ∉ qc_test.data ∧ qc_test.data ≠ [])
    (hrender : ∀ v : Int, ',' ∉ render v ∧ '\n' ∉ render v ∧ render v ≠ []) :
    ∃ raw : RawFrame,
      (processed_csv engine defaultCfg render dom df var qc_test x_var y_var).toOption.bind
          read_csv_parse = some raw
      ∧ raw.header.length = df.cols.length
      ∧ raw.rows.length = (df.get x_var).length := by
  have hrun := run_tests_ok_shape engine defaultCfg dom df var qc_test x_var y_var cfg hcfg hxt
  have hproc : processed_csv engine defaultCfg render dom df var qc_test x_var y_var
      = .ok (to_csv_noindex render
          ⟨df.get x_var,
           df.cols.eraseP (fun p => p.fst == x_var)
             ++ [(qc_test, engine cfg (df.get var) (df.get x_var) (df.get y_var))]⟩) := by
    unfold processed_csv
    rw [hrun]
    rfl
  have hallnames : ∀ p ∈ df.cols.eraseP (fun p => p.fst == x_var)
      ++ [(qc_test, engine cfg (df.get var) (df.get x_var) (df.get y_var))],
      ',' ∉ p.fst.data ∧ '\n' ∉ p.fst.data ∧ p.fst.data ≠ [] := by
    intro p hp
    rcases List.mem_append.mp hp with h | h
    · exact hnames p (List.eraseP_subset _ h)
    · have hpq : p = (qc_test, engine cfg (df.get var) (df.get x_var) (df.get y_var)) := by
        simpa using h
      rw [hpq]
      exact htname
  have hparse := read_csv_to_csv_shape render
      ⟨df.get x_var,
       df.cols.eraseP (fun p => p.fst == x_var)
         ++ [(qc_test, engine cfg (df.get var) (df.get x_var) (df.get y_var))]⟩
      (by simp) hallnames hrender
  have hfull : (processed_csv engine defaultCfg render dom df var qc_test x_var y_var).toOption.bind
      read_csv_parse
      = some ⟨(df.cols.eraseP (fun p => p.fst == x_var)
            ++ [(qc_test, engine cfg (df.get var) (df.get x_var) (df.get y_var))]).map
              (fun p => p.fst.data),
          (List.range (df.get x_var).length).map
            (fun i => (df.cols.eraseP (fun p => p.fst == x_var)
              ++ [(qc_test, engine cfg (df.get var) (df.get x_var) (df.get y_var))]).map
                (fun p => render (p.snd.getD i 0)))⟩ := by
    rw [hproc]
    exact hparse
  obtain ⟨p0, hp0, hfst⟩ := List.mem_map.mp hx
  have hlp : (df.cols.eraseP (fun p => p.fst == x_var)).length = df.cols.length - 1 :=
    List.length_eraseP_of_mem hp0 (by simp [hfst])
  have hpos : 0 < df.cols.length :=
    List.length_pos.mpr (fun he => by rw [he] at hp0; simp at hp0)
  refine ⟨_, hfull, ?_, ?_⟩
  · simp only [List.length_map, List.length_append, List.length_singleton, hlp]
    omega
  · simp

/-- C3 witness: the amended round-trip shape at a concrete dataset of
three columns and two rows. -/
theorem download_roundtrip_shape_witness :
    ∃ raw : RawFrame,
      (processed_csv (fun _ _ _ _ => [1, 1]) ⟨"d", []⟩ (fun _ => ['0'])
          [("threshold", "1")] ⟨[("timestamp", [2, 1]), ("z", [0, 0]), ("v", [5, 6])]⟩
          "v" "rate_of_change_test" "timestamp" "z").toOption.bind read_csv_parse = some raw
      ∧ raw.header.length = 3 ∧ raw.rows.length = 2 := by
  have h := download_roundtrip_shape (fun _ _ _ _ => [1, 1]) ⟨"d", []⟩ (fun _ => ['0'])
      [("threshold", "1")] ⟨[("timestamp", [2, 1]), ("z", [0, 0]), ("v", [5, 6])]⟩
      "v" "rate_of_change_test" "timestamp" "z"
      ⟨"rate_of_change_test", [("threshold", .num 1)]⟩
      (by decide) (by decide) (by decide)
      (by intro p hp; fin_cases hp <;> exact ⟨by decide, by decide, by decide⟩)
      ⟨by decide, by decide, by decide⟩
      (fun v => ⟨(by decide : ',' ∉ (['0'] : List Char)),
        (by decide : '\n' ∉ (['0'] : List Char)),
        (by decide : (['0'] : List Char) ≠ [])⟩)
  simpa using h

/-- C3 counterexample: on a three-column input the re-parsed download has
three columns again — the flag column is gained but the time column is
lost to `index=False` — not the four columns the claim requires. -/
theorem download_roundtrip_counterexample :
    ((processed_csv (fun _ _ _ _ => [1, 1]) ⟨"d", []⟩ (fun _ => ['0'])
        [("threshold", "1")] ⟨[("timestamp", [2, 1]), ("z", [0, 0]), ("v", [5, 6])]⟩
        "v" "rate_of_change_test" "timestamp" "z").toOption.bind read_csv_parse).map
          (fun r => r.header.length)
      = some ((⟨[("timestamp", [2, 1]), ("z", [0, 0]), ("v", [5, 6])]⟩ : Frame).cols.length)
    ∧ (⟨[("timestamp", [2, 1]), ("z", [0, 0]), ("v", [5, 6])]⟩ : Frame).cols.length = 3
    ∧ ¬ (3 : Nat) = 3 + 1 := by
  refine ⟨by decide, by decide, by decide⟩

end Qc
